import Mathlib

/-
  Shallow embedding of the TACS element-verification core
  (src/src/elements/TACSElementVerification.h).

  Only the header is present in the repository snapshot; the function
  bodies live in a translation unit that is not part of src/. Every
  definition whose body is not given by the header is therefore modelled
  from the specification (spec.md) and carries a doc comment saying so.
  Machine floating point is modelled by exact rationals; the TacsScalar
  type of the code (real or complex, chosen at compile time) is modelled
  by a pair of rationals together with an explicit mode tag.
-/

/-- A TACS scalar: real part plus the (complex-step mode) imaginary part.
In real mode the imaginary part is identically zero. -/
structure TacsScalar where
  re : ℚ
  im : ℚ
deriving DecidableEq, Repr

instance : Zero TacsScalar := ⟨⟨0, 0⟩⟩

instance : Add TacsScalar := ⟨fun a b => ⟨a.re + b.re, a.im + b.im⟩⟩

instance : Sub TacsScalar := ⟨fun a b => ⟨a.re - b.re, a.im - b.im⟩⟩

/-- Multiplication of a TacsScalar by the real step size dh. -/
def smulQ (c : ℚ) (a : TacsScalar) : TacsScalar := ⟨c * a.re, c * a.im⟩

/-- Multiplication of a TacsScalar by the purely imaginary step i*dh. -/
def smulIm (c : ℚ) (a : TacsScalar) : TacsScalar := ⟨-(c * a.im), c * a.re⟩

/-- Division of a TacsScalar by a real scalar, componentwise. -/
def divQ (a : TacsScalar) (c : ℚ) : TacsScalar := ⟨a.re / c, a.im / c⟩

/-- The compile-time scalar kind of the code: TacsReal or TacsComplex. -/
inductive ScalarMode where
  | real : ScalarMode
  | complexStep : ScalarMode
deriving DecidableEq

/-- Modelled from the spec: the process-wide pseudo-random source used by
TacsGenerateRandomArray; the C library generator behind the header is not
part of this core, so it is modelled as a linear congruential generator. -/
def lcg (s : Nat) : Nat := (1103515245 * s + 12345) % 2147483648

/-- Modelled from the spec: TacsGenerateRandomArray fills an array of size
scalars with reproducible pseudo-random values in the interval from lower
to upper; the state of the generator is passed explicitly and returned. -/
def tacsGenerateRandomArray (seed : Nat) (size : Nat) (lower upper : ℚ) :
    List ℚ × Nat :=
  match size with
  | 0 => ([], seed)
  | n + 1 =>
    let s := lcg seed
    let v := lower + (upper - lower) * ((s : ℚ) / 2147483648)
    let rest := tacsGenerateRandomArray s n lower upper
    (v :: rest.1, rest.2)

/-- Scan of an error list keeping the running maximum and the index at
which it was first attained; i is the absolute index of the head of the
remaining list, cur and curIdx the best value and index seen so far. -/
def maxErrAux : List ℚ → Nat → ℚ → Nat → ℚ × Nat
  | [], _, cur, curIdx => (cur, curIdx)
  | x :: xs, i, cur, curIdx =>
    if cur < x then maxErrAux xs (i + 1) x i
    else maxErrAux xs (i + 1) cur curIdx

/-- Scan the componentwise error list of a and b for its maximum and the
index at which the maximum is first attained; on empty input the result
is (0, 0). -/
def maxScan (f : ℚ → ℚ → ℚ) (a b : List ℚ) : ℚ × Nat :=
  match List.zipWith f a b with
  | [] => (0, 0)
  | e :: es => maxErrAux es 1 e 0

/-- Modelled from the spec: TacsGetMaxError returns the largest absolute
value of the difference between the arrays a and b together with the index
at which it is attained (the body of the function is not under src/). -/
def tacsGetMaxError (a b : List ℚ) : ℚ × Nat :=
  maxScan (fun x y => |x - y|) a b

/-- Modelled from the spec: the small positive floor placed under the
relative-error denominator to avoid division by zero. -/
def tacsRelEps : ℚ := 1 / 10 ^ 30

/-- One component of the relative error: the absolute difference divided
by the floored magnitude of the reference value. -/
def relErrTerm (x y : ℚ) : ℚ := |x - y| / max |x| tacsRelEps

/-- Modelled from the spec: TacsGetMaxRelError returns the maximum
relative error between a and b, with the epsilon floor in the denominator,
together with the index at which it is attained. -/
def tacsGetMaxRelError (a b : List ℚ) : ℚ × Nat :=
  maxScan relErrTerm a b

/-- Modelled from the spec: TacsForwardDiffPerturb writes
out[i] = orig[i] + dh * pert[i] in real mode, and
out[i] = orig[i] + i * dh * pert[i] in complex-step mode. -/
def tacsForwardDiffPerturb (mode : ScalarMode) (orig pert : List TacsScalar)
    (dh : ℚ) : List TacsScalar :=
  match mode with
  | .real => List.zipWith (fun o p => o + smulQ dh p) orig pert
  | .complexStep => List.zipWith (fun o p => o + smulIm dh p) orig pert

/-- Modelled from the spec: TacsBackwardDiffPerturb mirrors the forward
perturbation with the opposite sign; it is only consumed in real mode. -/
def tacsBackwardDiffPerturb (mode : ScalarMode) (orig pert : List TacsScalar)
    (dh : ℚ) : List TacsScalar :=
  match mode with
  | .real => List.zipWith (fun o p => o - smulQ dh p) orig pert
  | .complexStep => List.zipWith (fun o p => o - smulIm dh p) orig pert

/-- Modelled from the spec: TacsFormDiffApproximate forms the
finite-difference estimate (forward[i] - backward[i]) / (2*dh) in real
mode, and Im(forward[i]) / dh in complex-step mode, where the backward
array is not consulted at all. -/
def tacsFormDiffApproximate (mode : ScalarMode)
    (forward backward : List TacsScalar) (dh : ℚ) : List TacsScalar :=
  match mode with
  | .real => List.zipWith (fun f b => divQ (f - b) (2 * dh)) forward backward
  | .complexStep => forward.map (fun f => ⟨f.im / dh, 0⟩)

/-- Modelled from the spec: dh = 0 is a caller error (a division by zero),
treated as an error condition rather than silently handled; the checked
form of the differencing step reports it as such. -/
def tacsFormDiffApproximateChecked (mode : ScalarMode)
    (forward backward : List TacsScalar) (dh : ℚ) :
    Option (List TacsScalar) :=
  if dh = 0 then none
  else some (tacsFormDiffApproximate mode forward backward dh)

/-- Modelled from the spec and the header: the call convention of
TacsFormDiffApproximate. The function returns void; the estimate is
stored over the forward buffer (the first, non-const argument) and the
backward buffer, declared const, is returned unchanged. The pair is
(contents of the forward buffer after the call, contents of the backward
buffer after the call). -/
def tacsFormDiffApproximateCall (mode : ScalarMode)
    (forward backward : List TacsScalar) (dh : ℚ) :
    List TacsScalar × List TacsScalar :=
  (tacsFormDiffApproximate mode forward backward dh, backward)

/-- The outcome of one verifier invocation: the two error measures and the
integer verdict (0 = pass, nonzero = fail). -/
structure VerifyResult where
  maxErr : ℚ
  maxRelErr : ℚ
  verdict : Int
deriving DecidableEq, Repr

/-- Modelled from the spec: the pass/fail gate shared by every verifier.
The verdict is fail (1) exactly when the max relative error exceeds
test_fail_rtol AND the max absolute error exceeds test_fail_atol;
otherwise it is pass (0). -/
def tacsAssessResult (maxErr maxRelErr atol rtol : ℚ) : Int :=
  if rtol < maxRelErr ∧ atol < maxErr then 1 else 0

/-- Package a pair (max absolute error, max relative error) together with
the gated verdict. -/
def mkVerify (p : ℚ × ℚ) (atol rtol : ℚ) : VerifyResult :=
  { maxErr := p.1, maxRelErr := p.2,
    verdict := tacsAssessResult p.1 p.2 atol rtol }

/-- Modelled from the spec: the external element capability set consumed
by the verifiers (compute residual, energies, Jacobian action, adjoint
residual products); element implementations are outside this core.
The residual field ignores the design variables (they are fixed state of
the element); residualDV exposes the same residual as a function of an
explicit design-variable array for the design-derivative check. -/
structure TACSElement where
  alpha : ℚ
  beta : ℚ
  gamma : ℚ
  lagrangian : ℚ → List ℚ → List ℚ → List ℚ → List ℚ → ℚ
  residual : ℚ → List ℚ → List ℚ → List ℚ → List ℚ → List ℚ
  residualDV : ℚ → List ℚ → List ℚ → List ℚ → List ℚ → List ℚ → List ℚ
  jacobianProduct : ℚ → List ℚ → List ℚ → List ℚ → List ℚ → List ℚ → List ℚ
  adjResProduct : ℚ → List ℚ → List ℚ → List ℚ → List ℚ → List ℚ →
    List ℚ → List ℚ → ℚ
  adjResXptProduct : ℚ → List ℚ → List ℚ → List ℚ → List ℚ → List ℚ →
    List ℚ → ℚ

/-- Modelled from the spec: the external basis capability set (evaluate
shape functions and their parametric derivatives at a point); the
derivative field is flattened over the parametric directions. -/
structure TACSElementBasis where
  numParams : Nat
  shapeFunctions : List ℚ → List ℚ
  shapeFunctionDerivs : List ℚ → List ℚ

/-- Dot product of two rational vectors. -/
def dotQ (a b : List ℚ) : ℚ := (List.zipWith (· * ·) a b).sum

/-- Add dh times the direction q to the vector v, componentwise. -/
def addScaled (v q : List ℚ) (dh : ℚ) : List ℚ :=
  List.zipWith (fun o p => o + dh * p) v q

/-- Perturb the single component j of the vector v by dh. -/
def perturbAt (v : List ℚ) (j : Nat) (dh : ℚ) : List ℚ :=
  v.mapIdx (fun i x => if i = j then x + dh else x)

/-- Central-difference combination of two evaluation vectors. -/
def centralDiffList (f b : List ℚ) (dh : ℚ) : List ℚ :=
  List.zipWith (fun x y => (x - y) / (2 * dh)) f b

/-- The j-th unit basis vector of length n. -/
def unitVec (n : Nat) (j : Nat) : List ℚ :=
  (List.range n).map (fun i => if i = j then 1 else 0)

/-- Modelled from the spec: the error pair computed by the residual
verifier. A random direction over the state variables is drawn, the
Lagrangian is finite-differenced along it, and the directional derivative
is compared against the analytic residual contracted with the same
direction. -/
def residualErrors (elem : TACSElement) (time : ℚ)
    (Xpts vars dvars ddvars : List ℚ) (dh : ℚ) (seed : Nat) : ℚ × ℚ :=
  let q := (tacsGenerateRandomArray seed vars.length (-1) 1).1
  let fwd := addScaled vars q dh
  let bwd := addScaled vars q (-dh)
  let dLfd := (elem.lagrangian time Xpts fwd dvars ddvars -
    elem.lagrangian time Xpts bwd dvars ddvars) / (2 * dh)
  let res := elem.residual time Xpts vars dvars ddvars
  let dLan := dotQ q res
  ((tacsGetMaxError [dLan] [dLfd]).1, (tacsGetMaxRelError [dLan] [dLfd]).1)

/-- Modelled from the spec: the error pair computed by the Jacobian
verifier. A random direction (or the unit vector of the selected column)
is propagated into the three state blocks through the element blending
coefficients, the residual is finite-differenced, and the result is
compared with the analytic Jacobian action on the direction. -/
def jacobianErrors (elem : TACSElement) (time : ℚ)
    (Xpts vars dvars ddvars : List ℚ) (col : Int) (dh : ℚ) (seed : Nat) :
    ℚ × ℚ :=
  let n := vars.length
  let p := if 0 ≤ col then unitVec n col.toNat
    else (tacsGenerateRandomArray seed n (-1) 1).1
  let rf := elem.residual time Xpts
    (addScaled vars p (dh * elem.alpha))
    (addScaled dvars p (dh * elem.beta))
    (addScaled ddvars p (dh * elem.gamma))
  let rb := elem.residual time Xpts
    (addScaled vars p (-(dh * elem.alpha)))
    (addScaled dvars p (-(dh * elem.beta)))
    (addScaled ddvars p (-(dh * elem.gamma)))
  let jfd := centralDiffList rf rb dh
  let jan := elem.jacobianProduct time Xpts vars dvars ddvars p
  ((tacsGetMaxError jan jfd).1, (tacsGetMaxRelError jan jfd).1)

/-- Modelled from the spec: the error pair of the design-variable
adjoint-residual-product verifier. A random adjoint vector and a random
design direction are drawn; the scalar product of the adjoint with the
residual is finite-differenced along the design direction and compared
with the analytic derivative. -/
def adjResErrors (elem : TACSElement) (dvLen : Nat) (x : List ℚ)
    (time : ℚ) (Xpts vars dvars ddvars : List ℚ) (dh : ℚ) (seed : Nat) :
    ℚ × ℚ :=
  let r1 := tacsGenerateRandomArray seed vars.length (-1) 1
  let psi := r1.1
  let p := (tacsGenerateRandomArray r1.2 dvLen (-1) 1).1
  let ff := dotQ psi
    (elem.residualDV time (addScaled x p dh) Xpts vars dvars ddvars)
  let fb := dotQ psi
    (elem.residualDV time (addScaled x p (-dh)) Xpts vars dvars ddvars)
  let fd := (ff - fb) / (2 * dh)
  let an := elem.adjResProduct time x Xpts vars dvars ddvars psi p
  ((tacsGetMaxError [an] [fd]).1, (tacsGetMaxRelError [an] [fd]).1)

/-- Modelled from the spec: the error pair of the nodal-coordinate
adjoint-residual-product verifier; identical to the design-variable check
but the perturbation direction ranges over the nodal coordinates. -/
def adjResXptErrors (elem : TACSElement) (time : ℚ)
    (Xpts vars dvars ddvars : List ℚ) (dh : ℚ) (seed : Nat) : ℚ × ℚ :=
  let r1 := tacsGenerateRandomArray seed vars.length (-1) 1
  let psi := r1.1
  let p := (tacsGenerateRandomArray r1.2 Xpts.length (-1) 1).1
  let ff := dotQ psi
    (elem.residual time (addScaled Xpts p dh) vars dvars ddvars)
  let fb := dotQ psi
    (elem.residual time (addScaled Xpts p (-dh)) vars dvars ddvars)
  let fd := (ff - fb) / (2 * dh)
  let an := elem.adjResXptProduct time Xpts vars dvars ddvars psi p
  ((tacsGetMaxError [an] [fd]).1, (tacsGetMaxRelError [an] [fd]).1)

/-- Modelled from the spec: the error pair of the basis self-check. A
random parametric point is drawn; the shape functions are
finite-differenced in each parametric direction and the flattened result
is compared with the analytic parametric derivatives. -/
def basisErrors (basis : TACSElementBasis) (dh : ℚ) (seed : Nat) : ℚ × ℚ :=
  let pt := (tacsGenerateRandomArray seed basis.numParams (-1) 1).1
  let ndAn := basis.shapeFunctionDerivs pt
  let ndFd := ((List.range basis.numParams).map (fun j =>
    centralDiffList (basis.shapeFunctions (perturbAt pt j dh))
      (basis.shapeFunctions (perturbAt pt j (-dh))) dh)).flatten
  ((tacsGetMaxError ndAn ndFd).1, (tacsGetMaxRelError ndAn ndFd).1)

/-- Modelled from the spec: TacsTestElementResidual checks the analytic
residual against a finite difference of the Lagrangian and gates the
resulting errors against the two tolerances. -/
def tacsTestElementResidual (elem : TACSElement) (time : ℚ)
    (Xpts vars dvars ddvars : List ℚ) (dh : ℚ) (test_print_level : Int)
    (test_fail_atol test_fail_rtol : ℚ) (seed : Nat) : VerifyResult :=
  mkVerify (residualErrors elem time Xpts vars dvars ddvars dh seed)
    test_fail_atol test_fail_rtol

/-- Modelled from the spec: TacsTestElementJacobian checks the analytic
Jacobian action against a finite difference of the residual and gates the
resulting errors against the two tolerances. -/
def tacsTestElementJacobian (elem : TACSElement) (time : ℚ)
    (Xpts vars dvars ddvars : List ℚ) (col : Int) (dh : ℚ)
    (test_print_level : Int) (test_fail_atol test_fail_rtol : ℚ)
    (seed : Nat) : VerifyResult :=
  mkVerify (jacobianErrors elem time Xpts vars dvars ddvars col dh seed)
    test_fail_atol test_fail_rtol

/-- Modelled from the spec: TacsTestAdjResProduct checks the analytic
design-variable derivative of the adjoint-residual product against a
finite difference and gates the errors against the two tolerances. -/
def tacsTestAdjResProduct (elem : TACSElement) (dvLen : Nat) (x : List ℚ)
    (time : ℚ) (Xpts vars dvars ddvars : List ℚ) (dh : ℚ)
    (test_print_level : Int) (test_fail_atol test_fail_rtol : ℚ)
    (seed : Nat) : VerifyResult :=
  mkVerify (adjResErrors elem dvLen x time Xpts vars dvars ddvars dh seed)
    test_fail_atol test_fail_rtol

/-- Modelled from the spec: TacsTestAdjResXptProduct checks the analytic
nodal-coordinate derivative of the adjoint-residual product against a
finite difference and gates the errors against the two tolerances. -/
def tacsTestAdjResXptProduct (elem : TACSElement) (time : ℚ)
    (Xpts vars dvars ddvars : List ℚ) (dh : ℚ) (test_print_level : Int)
    (test_fail_atol test_fail_rtol : ℚ) (seed : Nat) : VerifyResult :=
  mkVerify (adjResXptErrors elem time Xpts vars dvars ddvars dh seed)
    test_fail_atol test_fail_rtol

/-- Modelled from the spec: TacsTestElementBasis checks the analytic
parametric derivatives of the shape functions against finite differences
and gates the errors against the two tolerances. -/
def tacsTestElementBasis (basis : TACSElementBasis) (dh : ℚ)
    (test_print_level : Int) (test_fail_atol test_fail_rtol : ℚ)
    (seed : Nat) : VerifyResult :=
  mkVerify (basisErrors basis dh seed) test_fail_atol test_fail_rtol

/-- The optional parameters shared by the verification entry points, as
declared in the header. -/
structure TestDefaults where
  dh : ℚ
  test_print_level : Int
  test_fail_atol : ℚ
  test_fail_rtol : ℚ
deriving DecidableEq, Repr

/-- Default arguments of TacsTestElementResidual in the header:
dh = 1e-7, test_print_level = 2, test_fail_atol = test_fail_rtol = 1e-5. -/
def tacsTestElementResidualDefaults : TestDefaults :=
  { dh := 1 / 10 ^ 7, test_print_level := 2,
    test_fail_atol := 1 / 10 ^ 5, test_fail_rtol := 1 / 10 ^ 5 }

/-- Default arguments of TacsTestElementJacobian in the header. -/
def tacsTestElementJacobianDefaults : TestDefaults :=
  { dh := 1 / 10 ^ 7, test_print_level := 2,
    test_fail_atol := 1 / 10 ^ 5, test_fail_rtol := 1 / 10 ^ 5 }

/-- Default arguments of TacsTestAdjResProduct in the header. -/
def tacsTestAdjResProductDefaults : TestDefaults :=
  { dh := 1 / 10 ^ 7, test_print_level := 2,
    test_fail_atol := 1 / 10 ^ 5, test_fail_rtol := 1 / 10 ^ 5 }

/-- Default arguments of TacsTestAdjResXptProduct in the header. -/
def tacsTestAdjResXptProductDefaults : TestDefaults :=
  { dh := 1 / 10 ^ 7, test_print_level := 2,
    test_fail_atol := 1 / 10 ^ 5, test_fail_rtol := 1 / 10 ^ 5 }

/-- Default arguments of TacsTestElementBasis in the header. -/
def tacsTestElementBasisDefaults : TestDefaults :=
  { dh := 1 / 10 ^ 7, test_print_level := 2,
    test_fail_atol := 1 / 10 ^ 5, test_fail_rtol := 1 / 10 ^ 5 }

/-- The caller-owned input arrays of a verifier call; the header declares
all of them const. -/
structure CallerBuffers where
  Xpts : List ℚ
  vars : List ℚ
  dvars : List ℚ
  ddvars : List ℚ
  x : List ℚ
deriving DecidableEq, Repr

/-- Modelled from the spec: a TacsTestElementResidual call as seen by the
caller; the verifier copies the caller buffers into local storage, so the
returned buffer state is the input buffer state. -/
def tacsTestElementResidualCall (elem : TACSElement) (time : ℚ)
    (bufs : CallerBuffers) (dh : ℚ) (test_print_level : Int)
    (test_fail_atol test_fail_rtol : ℚ) (seed : Nat) :
    VerifyResult × CallerBuffers :=
  (tacsTestElementResidual elem time bufs.Xpts bufs.vars bufs.dvars
    bufs.ddvars dh test_print_level test_fail_atol test_fail_rtol seed,
   bufs)

/-- Modelled from the spec: a TacsTestElementJacobian call as seen by the
caller. -/
def tacsTestElementJacobianCall (elem : TACSElement) (time : ℚ)
    (bufs : CallerBuffers) (col : Int) (dh : ℚ) (test_print_level : Int)
    (test_fail_atol test_fail_rtol : ℚ) (seed : Nat) :
    VerifyResult × CallerBuffers :=
  (tacsTestElementJacobian elem time bufs.Xpts bufs.vars bufs.dvars
    bufs.ddvars col dh test_print_level test_fail_atol test_fail_rtol seed,
   bufs)

/-- Modelled from the spec: a TacsTestAdjResProduct call as seen by the
caller. -/
def tacsTestAdjResProductCall (elem : TACSElement) (dvLen : Nat)
    (time : ℚ) (bufs : CallerBuffers) (dh : ℚ) (test_print_level : Int)
    (test_fail_atol test_fail_rtol : ℚ) (seed : Nat) :
    VerifyResult × CallerBuffers :=
  (tacsTestAdjResProduct elem dvLen bufs.x time bufs.Xpts bufs.vars
    bufs.dvars bufs.ddvars dh test_print_level test_fail_atol
    test_fail_rtol seed,
   bufs)

/-- Modelled from the spec: a TacsTestAdjResXptProduct call as seen by the
caller. -/
def tacsTestAdjResXptProductCall (elem : TACSElement) (time : ℚ)
    (bufs : CallerBuffers) (dh : ℚ) (test_print_level : Int)
    (test_fail_atol test_fail_rtol : ℚ) (seed : Nat) :
    VerifyResult × CallerBuffers :=
  (tacsTestAdjResXptProduct elem time bufs.Xpts bufs.vars bufs.dvars
    bufs.ddvars dh test_print_level test_fail_atol test_fail_rtol seed,
   bufs)

/-- A small concrete element used to exercise the verifier models on a
closed input: its residual is the state vector itself and its Lagrangian
is zero. -/
def sampleElement : TACSElement :=
  { alpha := 1, beta := 0, gamma := 0,
    lagrangian := fun _ _ _ _ _ => 0,
    residual := fun _ _ vars _ _ => vars,
    residualDV := fun _ x _ vars _ _ => addScaled vars x 1,
    jacobianProduct := fun _ _ _ _ _ p => p,
    adjResProduct := fun _ _ _ _ _ _ _ _ => 0,
    adjResXptProduct := fun _ _ _ _ _ _ _ => 0 }

/-- A small concrete basis used to exercise the basis self-check on a
closed input: one shape function, constant one, with zero derivative. -/
def sampleBasis : TACSElementBasis :=
  { numParams := 1,
    shapeFunctions := fun _ => [1],
    shapeFunctionDerivs := fun _ => [0] }

/-- Unfolding of addition on TacsScalar. -/
theorem TacsScalar.add_def (a b : TacsScalar) :
    a + b = ⟨a.re + b.re, a.im + b.im⟩ := rfl

/-- Unfolding of subtraction on TacsScalar. -/
theorem TacsScalar.sub_def (a b : TacsScalar) :
    a - b = ⟨a.re - b.re, a.im - b.im⟩ := rfl

/-- getD of a zipWith, for an index inside both lists. -/
theorem getD_zipWith_of_lt {α β γ : Type} (f : α → β → γ) (da : α) (db : β)
    (dc : γ) :
    ∀ (a : List α) (b : List β) (i : Nat), i < a.length → i < b.length →
      (List.zipWith f a b).getD i dc = f (a.getD i da) (b.getD i db) := by
  intro a
  induction a with
  | nil => intro b i h _; simp at h
  | cons x xs ih =>
    intro b i h1 h2
    cases b with
    | nil => simp at h2
    | cons y ys =>
      cases i with
      | zero => rfl
      | succ n =>
        have h3 : n < xs.length := by simpa using h1
        have h4 : n < ys.length := by simpa using h2
        simpa using ih ys n h3 h4

/-- getD of a map, for an index inside the list. -/
theorem getD_map_of_lt {α β : Type} (g : α → β) (da : α) (db : β) :
    ∀ (l : List α) (i : Nat), i < l.length →
      (l.map g).getD i db = g (l.getD i da) := by
  intro l
  induction l with
  | nil => intro i h; simp at h
  | cons x xs ih =>
    intro i h
    cases i with
    | zero => rfl
    | succ n => simpa using ih n (by simpa using h)

/-- The running maximum of the scan dominates the accumulator and every
element of the remaining list. -/
theorem maxErrAux_le (l : List ℚ) :
    ∀ (i : Nat) (cur : ℚ) (j : Nat),
      cur ≤ (maxErrAux l i cur j).1 ∧
        ∀ x ∈ l, x ≤ (maxErrAux l i cur j).1 := by
  induction l with
  | nil => intro i cur j; exact ⟨le_refl _, by simp⟩
  | cons x xs ih =>
    intro i cur j
    by_cases h : cur < x
    · simp only [maxErrAux, if_pos h]
      obtain ⟨h1, h2⟩ := ih (i + 1) x i
      refine ⟨le_trans (le_of_lt h) h1, ?_⟩
      intro y hy
      rcases List.mem_cons.mp hy with hEq | hy2
      · subst hEq; exact h1
      · exact h2 y hy2
    · simp only [maxErrAux, if_neg h]
      obtain ⟨h1, h2⟩ := ih (i + 1) cur j
      refine ⟨h1, ?_⟩
      intro y hy
      rcases List.mem_cons.mp hy with hEq | hy2
      · subst hEq; exact le_trans (le_of_not_lt h) h1
      · exact h2 y hy2

/-- The scan either keeps the accumulator or returns a value attained in
the remaining list, with the matching absolute index. -/
theorem maxErrAux_achieve (l : List ℚ) :
    ∀ (i : Nat) (cur : ℚ) (j : Nat),
      ((maxErrAux l i cur j).1 = cur ∧ (maxErrAux l i cur j).2 = j) ∨
        ∃ k, k < l.length ∧ l.getD k 0 = (maxErrAux l i cur j).1 ∧
          (maxErrAux l i cur j).2 = i + k := by
  induction l with
  | nil => intro i cur j; exact Or.inl ⟨rfl, rfl⟩
  | cons x xs ih =>
    intro i cur j
    by_cases h : cur < x
    · simp only [maxErrAux, if_pos h]
      rcases ih (i + 1) x i with ⟨h1, h2⟩ | ⟨k, hk, hg, hidx⟩
      · exact Or.inr ⟨0, by simp, by simpa using h1.symm, by simpa using h2⟩
      · refine Or.inr ⟨k + 1, ?_, by simpa using hg, ?_⟩
        · simp only [List.length_cons]; omega
        · rw [hidx]; omega
    · simp only [maxErrAux, if_neg h]
      rcases ih (i + 1) cur j with hC | ⟨k, hk, hg, hidx⟩
      · exact Or.inl hC
      · refine Or.inr ⟨k + 1, ?_, by simpa using hg, ?_⟩
        · simp only [List.length_cons]; omega
        · rw [hidx]; omega

/-- Full specification of the error scan on two same-length nonempty
lists: the returned index is in range, the returned value is attained
there, and it dominates every componentwise error. -/
theorem maxScan_spec (f : ℚ → ℚ → ℚ) (a b : List ℚ)
    (hlen : a.length = b.length) (hn : 0 < a.length) :
    (maxScan f a b).2 < a.length ∧
    f (a.getD (maxScan f a b).2 0) (b.getD (maxScan f a b).2 0) =
      (maxScan f a b).1 ∧
    ∀ i, i < a.length → f (a.getD i 0) (b.getD i 0) ≤ (maxScan f a b).1 := by
  have hlen2 : (List.zipWith f a b).length = a.length := by
    rw [List.length_zipWith, hlen, min_self]
  cases hzw : List.zipWith f a b with
  | nil =>
    rw [hzw] at hlen2
    simp at hlen2
    omega
  | cons e es =>
    have hu : maxScan f a b = maxErrAux es 1 e 0 := by
      unfold maxScan
      rw [hzw]
    have hlen3 : es.length + 1 = a.length := by
      rw [hzw] at hlen2
      simpa using hlen2
    have hget : ∀ i, i < a.length →
        (e :: es).getD i 0 = f (a.getD i 0) (b.getD i 0) := by
      intro i hi
      rw [← hzw]
      exact getD_zipWith_of_lt f 0 0 0 a b i hi (hlen ▸ hi)
    obtain ⟨hle1, hle2⟩ := maxErrAux_le es 1 e 0
    have hmem : ∀ x ∈ e :: es, x ≤ (maxErrAux es 1 e 0).1 := by
      intro x hx
      rcases List.mem_cons.mp hx with hEq | hx2
      · subst hEq; exact hle1
      · exact hle2 x hx2
    have hidxlt : (maxScan f a b).2 < a.length := by
      rw [hu]
      rcases maxErrAux_achieve es 1 e 0 with ⟨_, h2⟩ | ⟨k, hk, _, hidx⟩
      · rw [h2]; exact hn
      · rw [hidx]; omega
    refine ⟨hidxlt, ?_, ?_⟩
    · rw [← hget _ hidxlt]
      rw [hu] at hidxlt ⊢
      rcases maxErrAux_achieve es 1 e 0 with ⟨h1, h2⟩ | ⟨k, hk, hg, hidx⟩
      · rw [h2, h1]
        rfl
      · rw [hidx]
        have hcomm : 1 + k = k + 1 := by omega
        rw [hcomm]
        simpa using hg
    · intro i hi
      rw [← hget i hi, hu]
      apply hmem
      have hilt : i < (e :: es).length := by
        simp only [List.length_cons]; omega
      rw [List.getD_eq_getElem _ 0 hilt]
      exact List.getElem_mem hilt

/-- C4: for same-length nonempty arrays, TacsGetMaxError returns the
maximum componentwise absolute difference of a and b, the result is
symmetric in a and b, and the index written through max_index is a valid
index in [0, n) at which the maximum is attained. -/
theorem tacsGetMaxError_spec (a b : List ℚ) (hlen : a.length = b.length)
    (hn : 0 < a.length) :
    ((tacsGetMaxError a b).2 < a.length ∧
      |a.getD (tacsGetMaxError a b).2 0 - b.getD (tacsGetMaxError a b).2 0| =
        (tacsGetMaxError a b).1) ∧
    (∀ i, i < a.length →
      |a.getD i 0 - b.getD i 0| ≤ (tacsGetMaxError a b).1) ∧
    tacsGetMaxError a b = tacsGetMaxError b a := by
  have h := maxScan_spec (fun x y => |x - y|) a b hlen hn
  refine ⟨⟨h.1, h.2.1⟩, h.2.2, ?_⟩
  unfold tacsGetMaxError maxScan
  rw [List.zipWith_comm_of_comm (fun x y => |x - y|)
    (fun x y => abs_sub_comm x y) a b]

/-- Witness for C4 at a = [3, 0], b = [1, 2]. -/
theorem tacsGetMaxError_spec_witness :
    (([(3 : ℚ), 0].length = [(1 : ℚ), 2].length ∧ 0 < [(3 : ℚ), 0].length) ∧
      ((tacsGetMaxError [3, 0] [1, 2]).2 < [(3 : ℚ), 0].length ∧
        |[(3 : ℚ), 0].getD (tacsGetMaxError [3, 0] [1, 2]).2 0 -
          [(1 : ℚ), 2].getD (tacsGetMaxError [3, 0] [1, 2]).2 0| =
          (tacsGetMaxError [3, 0] [1, 2]).1) ∧
      (∀ i, i < [(3 : ℚ), 0].length →
        |[(3 : ℚ), 0].getD i 0 - [(1 : ℚ), 2].getD i 0| ≤
          (tacsGetMaxError [3, 0] [1, 2]).1) ∧
      tacsGetMaxError [3, 0] [1, 2] = tacsGetMaxError [1, 2] [3, 0]) :=
  ⟨⟨by decide, by decide⟩,
   tacsGetMaxError_spec [3, 0] [1, 2] (by decide) (by decide)⟩

/-- C3: for same-length nonempty arrays, TacsGetMaxRelError returns the
maximum of |a[i]-b[i]| / max(|a[i]|, eps) with a positive floor eps, so
the denominator is never zero even when a[i] = 0, and writes the
achieving index through max_index. -/
theorem tacsGetMaxRelError_spec (a b : List ℚ)
    (hlen : a.length = b.length) (hn : 0 < a.length) :
    ((tacsGetMaxRelError a b).2 < a.length ∧
      relErrTerm (a.getD (tacsGetMaxRelError a b).2 0)
          (b.getD (tacsGetMaxRelError a b).2 0) =
        (tacsGetMaxRelError a b).1) ∧
    (∀ i, i < a.length →
      relErrTerm (a.getD i 0) (b.getD i 0) ≤ (tacsGetMaxRelError a b).1) ∧
    ∀ i, 0 < max |a.getD i 0| tacsRelEps := by
  have h := maxScan_spec relErrTerm a b hlen hn
  refine ⟨⟨h.1, h.2.1⟩, h.2.2, ?_⟩
  intro i
  have heps : (0 : ℚ) < tacsRelEps := by norm_num [tacsRelEps]
  exact lt_of_lt_of_le heps (le_max_right _ _)

/-- Witness for C3 at a = [0], b = [5]: the reference entry is zero and
the epsilon floor keeps the denominator positive. -/
theorem tacsGetMaxRelError_spec_witness :
    (([(0 : ℚ)].length = [(5 : ℚ)].length ∧ 0 < [(0 : ℚ)].length) ∧
      ((tacsGetMaxRelError [0] [5]).2 < [(0 : ℚ)].length ∧
        relErrTerm ([(0 : ℚ)].getD (tacsGetMaxRelError [0] [5]).2 0)
            ([(5 : ℚ)].getD (tacsGetMaxRelError [0] [5]).2 0) =
          (tacsGetMaxRelError [0] [5]).1) ∧
      (∀ i, i < [(0 : ℚ)].length →
        relErrTerm ([(0 : ℚ)].getD i 0) ([(5 : ℚ)].getD i 0) ≤
          (tacsGetMaxRelError [0] [5]).1) ∧
      ∀ i, 0 < max |[(0 : ℚ)].getD i 0| tacsRelEps) :=
  ⟨⟨by decide, by decide⟩,
   tacsGetMaxRelError_spec [0] [5] (by decide) (by decide)⟩

/-- C2: TacsFormDiffApproximate produces, entrywise, the estimate
(forward[i] - backward[i]) / (2*dh) in real mode and Im(forward[i]) / dh
in complex-step mode, where the backward argument is ignored. -/
theorem tacsFormDiffApproximate_spec (fwd bwd : List TacsScalar) (dh : ℚ)
    (i : Nat) (hlen : fwd.length = bwd.length) (hi : i < fwd.length) :
    (tacsFormDiffApproximate .real fwd bwd dh).getD i 0 =
      divQ (fwd.getD i 0 - bwd.getD i 0) (2 * dh) ∧
    (tacsFormDiffApproximate .complexStep fwd bwd dh).getD i 0 =
      ⟨(fwd.getD i 0).im / dh, 0⟩ ∧
    ∀ bwd2, tacsFormDiffApproximate .complexStep fwd bwd dh =
      tacsFormDiffApproximate .complexStep fwd bwd2 dh := by
  refine ⟨?_, ?_, fun bwd2 => rfl⟩
  · exact getD_zipWith_of_lt (fun x y => divQ (x - y) (2 * dh)) 0 0 0
      fwd bwd i hi (hlen ▸ hi)
  · exact getD_map_of_lt (fun s => (⟨s.im / dh, 0⟩ : TacsScalar)) 0 0 fwd i hi

/-- Witness for C2 at forward = [3 + 4i], backward = [1 + 2i], dh = 1. -/
theorem tacsFormDiffApproximate_spec_witness :
    (([(⟨3, 4⟩ : TacsScalar)].length = [(⟨1, 2⟩ : TacsScalar)].length ∧
        0 < [(⟨3, 4⟩ : TacsScalar)].length) ∧
      ((tacsFormDiffApproximate .real [⟨3, 4⟩] [⟨1, 2⟩] 1).getD 0 0 =
        divQ ([(⟨3, 4⟩ : TacsScalar)].getD 0 0 -
          [(⟨1, 2⟩ : TacsScalar)].getD 0 0) (2 * 1) ∧
      (tacsFormDiffApproximate .complexStep [⟨3, 4⟩] [⟨1, 2⟩] 1).getD 0 0 =
        ⟨([(⟨3, 4⟩ : TacsScalar)].getD 0 0).im / 1, 0⟩ ∧
      ∀ bwd2, tacsFormDiffApproximate .complexStep [⟨3, 4⟩] [⟨1, 2⟩] 1 =
        tacsFormDiffApproximate .complexStep [⟨3, 4⟩] bwd2 1)) :=
  ⟨⟨by decide, by decide⟩,
   tacsFormDiffApproximate_spec [⟨3, 4⟩] [⟨1, 2⟩] 1 0 (by decide) (by decide)⟩

/-- C5: entrywise, TacsForwardDiffPerturb adds dh * pert[i] in real mode
and the purely imaginary increment i * dh * pert[i] in complex-step mode,
and TacsBackwardDiffPerturb mirrors the real-mode forward perturbation
with the opposite sign. -/
theorem tacsPerturb_spec (orig pert : List TacsScalar) (dh : ℚ) (i : Nat)
    (hlen : orig.length = pert.length) (hi : i < orig.length) :
    (tacsForwardDiffPerturb .real orig pert dh).getD i 0 =
      ⟨(orig.getD i 0).re + dh * (pert.getD i 0).re,
       (orig.getD i 0).im + dh * (pert.getD i 0).im⟩ ∧
    (tacsForwardDiffPerturb .complexStep orig pert dh).getD i 0 =
      ⟨(orig.getD i 0).re - dh * (pert.getD i 0).im,
       (orig.getD i 0).im + dh * (pert.getD i 0).re⟩ ∧
    (tacsBackwardDiffPerturb .real orig pert dh).getD i 0 =
      ⟨(orig.getD i 0).re - dh * (pert.getD i 0).re,
       (orig.getD i 0).im - dh * (pert.getD i 0).im⟩ := by
  have hip : i < pert.length := hlen ▸ hi
  refine ⟨?_, ?_, ?_⟩
  · have h := getD_zipWith_of_lt (fun o p => o + smulQ dh p) 0 0 0
      orig pert i hi hip
    rw [show tacsForwardDiffPerturb .real orig pert dh =
      List.zipWith (fun o p => o + smulQ dh p) orig pert from rfl, h]
    rfl
  · have h := getD_zipWith_of_lt (fun o p => o + smulIm dh p) 0 0 0
      orig pert i hi hip
    rw [show tacsForwardDiffPerturb .complexStep orig pert dh =
      List.zipWith (fun o p => o + smulIm dh p) orig pert from rfl, h]
    simp only [TacsScalar.add_def, smulIm, TacsScalar.mk.injEq]
    constructor <;> ring_nf
  · have h := getD_zipWith_of_lt (fun o p => o - smulQ dh p) 0 0 0
      orig pert i hi hip
    rw [show tacsBackwardDiffPerturb .real orig pert dh =
      List.zipWith (fun o p => o - smulQ dh p) orig pert from rfl, h]
    rfl

/-- Witness for C5 at orig = [1 + 2i], pert = [3 + 4i], dh = 2. -/
theorem tacsPerturb_spec_witness :
    (([(⟨1, 2⟩ : TacsScalar)].length = [(⟨3, 4⟩ : TacsScalar)].length ∧
        0 < [(⟨1, 2⟩ : TacsScalar)].length) ∧
      ((tacsForwardDiffPerturb .real [⟨1, 2⟩] [⟨3, 4⟩] 2).getD 0 0 =
        ⟨([(⟨1, 2⟩ : TacsScalar)].getD 0 0).re +
            2 * ([(⟨3, 4⟩ : TacsScalar)].getD 0 0).re,
          ([(⟨1, 2⟩ : TacsScalar)].getD 0 0).im +
            2 * ([(⟨3, 4⟩ : TacsScalar)].getD 0 0).im⟩ ∧
      (tacsForwardDiffPerturb .complexStep [⟨1, 2⟩] [⟨3, 4⟩] 2).getD 0 0 =
        ⟨([(⟨1, 2⟩ : TacsScalar)].getD 0 0).re -
            2 * ([(⟨3, 4⟩ : TacsScalar)].getD 0 0).im,
          ([(⟨1, 2⟩ : TacsScalar)].getD 0 0).im +
            2 * ([(⟨3, 4⟩ : TacsScalar)].getD 0 0).re⟩ ∧
      (tacsBackwardDiffPerturb .real [⟨1, 2⟩] [⟨3, 4⟩] 2).getD 0 0 =
        ⟨([(⟨1, 2⟩ : TacsScalar)].getD 0 0).re -
            2 * ([(⟨3, 4⟩ : TacsScalar)].getD 0 0).re,
          ([(⟨1, 2⟩ : TacsScalar)].getD 0 0).im -
            2 * ([(⟨3, 4⟩ : TacsScalar)].getD 0 0).im⟩)) :=
  ⟨⟨by decide, by decide⟩,
   tacsPerturb_spec [⟨1, 2⟩] [⟨3, 4⟩] 2 0 (by decide) (by decide)⟩

/-- C6: in every perturbation and differencing utility, size = 0 is a
no-op producing a zero-length result, while dh = 0 makes the checked
differencing step report the caller error instead of a value. -/
theorem tacsPerturbEdge_spec :
    (∀ mode dh, tacsForwardDiffPerturb mode [] [] dh = [] ∧
      tacsBackwardDiffPerturb mode [] [] dh = [] ∧
      tacsFormDiffApproximate mode [] [] dh = []) ∧
    ∀ mode fwd bwd dh,
      tacsFormDiffApproximateChecked mode fwd bwd dh = none ↔ dh = 0 := by
  constructor
  · intro mode dh
    cases mode <;> exact ⟨rfl, rfl, rfl⟩
  · intro mode fwd bwd dh
    unfold tacsFormDiffApproximateChecked
    by_cases h : dh = 0
    · simp [h]
    · simp [h]

/-- The gated verdict of mkVerify is nonzero exactly when both error
gates are exceeded. -/
theorem mkVerify_fail_iff (p : ℚ × ℚ) (atol rtol : ℚ) :
    (mkVerify p atol rtol).verdict ≠ 0 ↔
      rtol < (mkVerify p atol rtol).maxRelErr ∧
        atol < (mkVerify p atol rtol).maxErr := by
  unfold mkVerify tacsAssessResult
  by_cases h : rtol < p.2 ∧ atol < p.1
  · simp [h]
  · simp [h]

/-- The gated verdict is always 0 or 1. -/
theorem assess_zero_or_one (me mre atol rtol : ℚ) :
    tacsAssessResult me mre atol rtol = 0 ∨
      tacsAssessResult me mre atol rtol = 1 := by
  unfold tacsAssessResult
  by_cases h : rtol < mre ∧ atol < me
  · right; simp [h]
  · left; simp [h]

/-- C1: for each of the five verifiers, the returned verdict is fail
(nonzero) exactly when the max relative error exceeds test_fail_rtol AND
the max absolute error exceeds test_fail_atol; if either gate is within
tolerance the verdict is pass (0). -/
theorem tacsVerdictTwoGate_spec :
    (∀ elem time Xpts vars dvars ddvars dh pl atol rtol seed,
      (tacsTestElementResidual elem time Xpts vars dvars ddvars dh pl atol
          rtol seed).verdict ≠ 0 ↔
        rtol < (tacsTestElementResidual elem time Xpts vars dvars ddvars dh
            pl atol rtol seed).maxRelErr ∧
          atol < (tacsTestElementResidual elem time Xpts vars dvars ddvars
            dh pl atol rtol seed).maxErr) ∧
    (∀ elem time Xpts vars dvars ddvars col dh pl atol rtol seed,
      (tacsTestElementJacobian elem time Xpts vars dvars ddvars col dh pl
          atol rtol seed).verdict ≠ 0 ↔
        rtol < (tacsTestElementJacobian elem time Xpts vars dvars ddvars
            col dh pl atol rtol seed).maxRelErr ∧
          atol < (tacsTestElementJacobian elem time Xpts vars dvars ddvars
            col dh pl atol rtol seed).maxErr) ∧
    (∀ elem dvLen x time Xpts vars dvars ddvars dh pl atol rtol seed,
      (tacsTestAdjResProduct elem dvLen x time Xpts vars dvars ddvars dh
          pl atol rtol seed).verdict ≠ 0 ↔
        rtol < (tacsTestAdjResProduct elem dvLen x time Xpts vars dvars
            ddvars dh pl atol rtol seed).maxRelErr ∧
          atol < (tacsTestAdjResProduct elem dvLen x time Xpts vars dvars
            ddvars dh pl atol rtol seed).maxErr) ∧
    (∀ elem time Xpts vars dvars ddvars dh pl atol rtol seed,
      (tacsTestAdjResXptProduct elem time Xpts vars dvars ddvars dh pl
          atol rtol seed).verdict ≠ 0 ↔
        rtol < (tacsTestAdjResXptProduct elem time Xpts vars dvars ddvars
            dh pl atol rtol seed).maxRelErr ∧
          atol < (tacsTestAdjResXptProduct elem time Xpts vars dvars
            ddvars dh pl atol rtol seed).maxErr) ∧
    (∀ basis dh pl atol rtol seed,
      (tacsTestElementBasis basis dh pl atol rtol seed).verdict ≠ 0 ↔
        rtol < (tacsTestElementBasis basis dh pl atol rtol
            seed).maxRelErr ∧
          atol < (tacsTestElementBasis basis dh pl atol rtol
            seed).maxErr) := by
  refine ⟨?_, ?_, ?_, ?_, ?_⟩
  · intro elem time Xpts vars dvars ddvars dh pl atol rtol seed
    exact mkVerify_fail_iff _ atol rtol
  · intro elem time Xpts vars dvars ddvars col dh pl atol rtol seed
    exact mkVerify_fail_iff _ atol rtol
  · intro elem dvLen x time Xpts vars dvars ddvars dh pl atol rtol seed
    exact mkVerify_fail_iff _ atol rtol
  · intro elem time Xpts vars dvars ddvars dh pl atol rtol seed
    exact mkVerify_fail_iff _ atol rtol
  · intro basis dh pl atol rtol seed
    exact mkVerify_fail_iff _ atol rtol

/-- C7: every verification entry point returns an integer verdict taking
only the values 0 (pass) and 1 (fail), and its default parameters as
declared in the header are dh = 1e-7, test_print_level = 2 and
test_fail_atol = test_fail_rtol = 1e-5. -/
theorem tacsDefaults_spec :
    tacsTestElementResidualDefaults =
      { dh := 1 / 10 ^ 7, test_print_level := 2,
        test_fail_atol := 1 / 10 ^ 5, test_fail_rtol := 1 / 10 ^ 5 } ∧
    tacsTestElementJacobianDefaults =
      { dh := 1 / 10 ^ 7, test_print_level := 2,
        test_fail_atol := 1 / 10 ^ 5, test_fail_rtol := 1 / 10 ^ 5 } ∧
    tacsTestAdjResProductDefaults =
      { dh := 1 / 10 ^ 7, test_print_level := 2,
        test_fail_atol := 1 / 10 ^ 5, test_fail_rtol := 1 / 10 ^ 5 } ∧
    tacsTestAdjResXptProductDefaults =
      { dh := 1 / 10 ^ 7, test_print_level := 2,
        test_fail_atol := 1 / 10 ^ 5, test_fail_rtol := 1 / 10 ^ 5 } ∧
    tacsTestElementBasisDefaults =
      { dh := 1 / 10 ^ 7, test_print_level := 2,
        test_fail_atol := 1 / 10 ^ 5, test_fail_rtol := 1 / 10 ^ 5 } ∧
    (∀ elem time Xpts vars dvars ddvars dh pl atol rtol seed,
      (tacsTestElementResidual elem time Xpts vars dvars ddvars dh pl atol
          rtol seed).verdict = 0 ∨
        (tacsTestElementResidual elem time Xpts vars dvars ddvars dh pl
          atol rtol seed).verdict = 1) ∧
    (∀ elem time Xpts vars dvars ddvars col dh pl atol rtol seed,
      (tacsTestElementJacobian elem time Xpts vars dvars ddvars col dh pl
          atol rtol seed).verdict = 0 ∨
        (tacsTestElementJacobian elem time Xpts vars dvars ddvars col dh
          pl atol rtol seed).verdict = 1) ∧
    (∀ elem dvLen x time Xpts vars dvars ddvars dh pl atol rtol seed,
      (tacsTestAdjResProduct elem dvLen x time Xpts vars dvars ddvars dh
          pl atol rtol seed).verdict = 0 ∨
        (tacsTestAdjResProduct elem dvLen x time Xpts vars dvars ddvars
          dh pl atol rtol seed).verdict = 1) ∧
    (∀ elem time Xpts vars dvars ddvars dh pl atol rtol seed,
      (tacsTestAdjResXptProduct elem time Xpts vars dvars ddvars dh pl
          atol rtol seed).verdict = 0 ∨
        (tacsTestAdjResXptProduct elem time Xpts vars dvars ddvars dh pl
          atol rtol seed).verdict = 1) ∧
    (∀ basis dh pl atol rtol seed,
      (tacsTestElementBasis basis dh pl atol rtol seed).verdict = 0 ∨
        (tacsTestElementBasis basis dh pl atol rtol seed).verdict = 1) := by
  refine ⟨rfl, rfl, rfl, rfl, rfl, ?_, ?_, ?_, ?_, ?_⟩
  · intro elem time Xpts vars dvars ddvars dh pl atol rtol seed
    exact assess_zero_or_one _ _ atol rtol
  · intro elem time Xpts vars dvars ddvars col dh pl atol rtol seed
    exact assess_zero_or_one _ _ atol rtol
  · intro elem dvLen x time Xpts vars dvars ddvars dh pl atol rtol seed
    exact assess_zero_or_one _ _ atol rtol
  · intro elem time Xpts vars dvars ddvars dh pl atol rtol seed
    exact assess_zero_or_one _ _ atol rtol
  · intro basis dh pl atol rtol seed
    exact assess_zero_or_one _ _ atol rtol

/-- C8: no verifier call mutates the caller-owned arrays: the buffer
state returned to the caller equals the buffer state before the call, for
the residual, Jacobian and both adjoint-product verifiers; perturbations
occur only in locally owned copies. -/
theorem tacsNoMutation_spec :
    (∀ elem time bufs dh pl atol rtol seed,
      (tacsTestElementResidualCall elem time bufs dh pl atol rtol
          seed).2 = bufs) ∧
    (∀ elem time bufs col dh pl atol rtol seed,
      (tacsTestElementJacobianCall elem time bufs col dh pl atol rtol
          seed).2 = bufs) ∧
    (∀ elem dvLen time bufs dh pl atol rtol seed,
      (tacsTestAdjResProductCall elem dvLen time bufs dh pl atol rtol
          seed).2 = bufs) ∧
    (∀ elem time bufs dh pl atol rtol seed,
      (tacsTestAdjResXptProductCall elem time bufs dh pl atol rtol
          seed).2 = bufs) :=
  ⟨fun _ _ _ _ _ _ _ _ => rfl, fun _ _ _ _ _ _ _ _ _ => rfl,
   fun _ _ _ _ _ _ _ _ _ => rfl, fun _ _ _ _ _ _ _ _ => rfl⟩

/-- C9: every verifier is a deterministic function of its arguments and
the random seed: two invocations with the same seeded random source and
identical inputs yield identical verdicts and identical error values. -/
theorem tacsDeterminism_spec :
    (∀ elem time Xpts vars dvars ddvars dh pl atol rtol s1 s2, s1 = s2 →
      tacsTestElementResidual elem time Xpts vars dvars ddvars dh pl atol
          rtol s1 =
        tacsTestElementResidual elem time Xpts vars dvars ddvars dh pl
          atol rtol s2) ∧
    (∀ elem time Xpts vars dvars ddvars col dh pl atol rtol s1 s2,
      s1 = s2 →
      tacsTestElementJacobian elem time Xpts vars dvars ddvars col dh pl
          atol rtol s1 =
        tacsTestElementJacobian elem time Xpts vars dvars ddvars col dh
          pl atol rtol s2) ∧
    (∀ elem dvLen x time Xpts vars dvars ddvars dh pl atol rtol s1 s2,
      s1 = s2 →
      tacsTestAdjResProduct elem dvLen x time Xpts vars dvars ddvars dh
          pl atol rtol s1 =
        tacsTestAdjResProduct elem dvLen x time Xpts vars dvars ddvars
          dh pl atol rtol s2) ∧
    (∀ elem time Xpts vars dvars ddvars dh pl atol rtol s1 s2, s1 = s2 →
      tacsTestAdjResXptProduct elem time Xpts vars dvars ddvars dh pl
          atol rtol s1 =
        tacsTestAdjResXptProduct elem time Xpts vars dvars ddvars dh pl
          atol rtol s2) ∧
    (∀ basis dh pl atol rtol s1 s2, s1 = s2 →
      tacsTestElementBasis basis dh pl atol rtol s1 =
        tacsTestElementBasis basis dh pl atol rtol s2) := by
  refine ⟨?_, ?_, ?_, ?_, ?_⟩
  · intro elem time Xpts vars dvars ddvars dh pl atol rtol s1 s2 h
    rw [h]
  · intro elem time Xpts vars dvars ddvars col dh pl atol rtol s1 s2 h
    rw [h]
  · intro elem dvLen x time Xpts vars dvars ddvars dh pl atol rtol s1 s2 h
    rw [h]
  · intro elem time Xpts vars dvars ddvars dh pl atol rtol s1 s2 h
    rw [h]
  · intro basis dh pl atol rtol s1 s2 h
    rw [h]

/-- Witness for C9: the residual verifier applied twice to the sample
element with the same seed gives the same result. -/
theorem tacsDeterminism_spec_witness :
    (7 : Nat) = 7 ∧
    tacsTestElementResidual sampleElement 0 [] [1] [] [] 1 2 1 1 7 =
      tacsTestElementResidual sampleElement 0 [] [1] [] [] 1 2 1 1 7 :=
  ⟨rfl, tacsDeterminism_spec.1 sampleElement 0 [] [1] [] [] 1 2 1 1 7 7 rfl⟩

/-- C10: TacsFormDiffApproximate stores its result over the forward
buffer, its first non-const argument; there is no separate output and the
const backward buffer is returned exactly as it was passed in. -/
theorem tacsFormDiffInPlace_spec :
    ∀ mode fwd bwd dh,
      (tacsFormDiffApproximateCall mode fwd bwd dh).1 =
        tacsFormDiffApproximate mode fwd bwd dh ∧
      (tacsFormDiffApproximateCall mode fwd bwd dh).2 = bwd :=
  fun _ _ _ _ => ⟨rfl, rfl⟩
